import Mathlib

/-!
Verification of the sales-report pipeline in `src/run.py`.

The program loads a CSV of transactions, aggregates them into a monthly
summary, a per-product summary and a grand total (`make_summary_tables`),
and renders them into a styled three-sheet workbook (`export_excel`).
This file gives a shallow embedding of those operations and proves the
specified properties about them.

Modelling conventions:
* A transaction row keeps its `date` as the literal `YYYY-MM-DD` string of
  the input contract; `pd.to_datetime` followed by `.dt.to_period("M")`
  and `astype(str)` then yields exactly the first seven characters of the
  date, which is how `month` is derived here.
* Numeric columns (`qty`, `unit_price`, the `sales` products and their
  sums) are modelled with exact arithmetic (`ℤ`, `ℚ`).
* `pandas.groupby(key, as_index=False)[...].sum()` with its default
  `sort=True` returns one row per distinct key, keys in ascending order,
  each with the sum over its group; `groupbySumSorted` models exactly
  that.  The subsequent `sort_values` calls are modelled by a
  deterministic comparison sort (`List.insertionSort`); the relative
  order of rows whose sort key ties is not fixed by the source contract.
* Python `int()` applied to a (possibly fractional) numeric value
  truncates toward zero; `pyInt` models it.
-/

namespace SalesReport

/-- A transaction row of the input CSV: header `date,product,qty,unit_price`,
with `date` in `YYYY-MM-DD` form. -/
structure Row where
  date : String
  product : String
  qty : ℤ
  unit_price : ℚ
  deriving DecidableEq, Repr

/-- The derived `sales` column: `df["sales"] = df["qty"] * df["unit_price"]`. -/
def sales (r : Row) : ℚ := r.qty * r.unit_price

/-- The derived `month` column: `df["date"].dt.to_period("M").astype(str)`,
which for a `YYYY-MM-DD` date is its first seven characters. -/
def monthOf (r : Row) : String := r.date.take 7

/-- Python `int(x)`: truncation toward zero. -/
def pyInt (q : ℚ) : ℤ := if q < 0 then ⌈q⌉ else ⌊q⌋

/-- The distinct values of a key column, in ascending order — the index
produced by `df.groupby(key)` with its default `sort=True`. -/
def groupKeys (key : Row → String) (rows : List Row) : List String :=
  List.insertionSort (fun a b => a ≤ b) ((rows.map key).dedup)

/-- The summed `sales` of the group of rows whose key column equals `k`. -/
def groupSum (key : Row → String) (rows : List Row) (k : String) : ℚ :=
  ((rows.filter (fun r => key r = k)).map sales).sum

/-- `df.groupby(key, as_index=False)["sales"].sum()`: one row per distinct
key, keys ascending, each paired with its group sum. -/
def groupbySumSorted (key : Row → String) (rows : List Row) : List (String × ℚ) :=
  (groupKeys key rows).map (fun k => (k, groupSum key rows k))

/-- The ordering used by `.sort_values("sales", ascending=False)` on the
per-product table: later rows have sales no larger than earlier ones. -/
def salesDesc (a b : String × ℚ) : Prop := b.2 ≤ a.2

instance : DecidableRel salesDesc := fun a b => inferInstanceAs (Decidable (b.2 ≤ a.2))

instance : IsTotal (String × ℚ) salesDesc := ⟨fun a b => le_total b.2 a.2⟩

instance : IsTrans (String × ℚ) salesDesc := ⟨fun _ _ _ hab hbc => le_trans hbc hab⟩

/-- `make_summary_tables`: the monthly summary (group by `month`, sum
`sales`, sort ascending by `month`), the product summary (group by
`product`, sum `sales`, sort descending by the sum) and the grand total
`int(df["sales"].sum())`. -/
def make_summary_tables (rows : List Row) :
    List (String × ℚ) × List (String × ℚ) × ℤ :=
  let monthly := groupbySumSorted monthOf rows
  let by_product := List.insertionSort salesDesc (groupbySumSorted Row.product rows)
  let total := pyInt ((rows.map sales).sum)
  (monthly, by_product, total)

/-- The seven-row sample dataset written by `ensure_sample_csv`. -/
def sample_rows : List Row :=
  [⟨"2026-01-01", "Apple", 2, 120⟩,
   ⟨"2026-01-01", "Orange", 5, 80⟩,
   ⟨"2026-01-02", "Apple", 1, 120⟩,
   ⟨"2026-01-03", "Banana", 10, 50⟩,
   ⟨"2026-01-03", "Orange", 3, 80⟩,
   ⟨"2026-02-01", "Apple", 4, 120⟩,
   ⟨"2026-02-02", "Banana", 6, 50⟩]

/-- `ensure_sample_csv`: the input file, modelled as `none` when absent and
`some rows` when present with the given content.  When the file exists the
function returns at once; otherwise it writes the sample dataset. -/
def ensure_sample_csv : Option (List Row) → Option (List Row)
  | some f => some f
  | none => some sample_rows

/-! ### Workbook model

A worksheet's value grid is a list of rows of cells; a cell holds `none`
when empty (openpyxl reports its `value` as `None`) and otherwise the
`str()` rendering of its value.  Purely visual attributes (fonts, fills,
borders, merges, freeze panes, number formats) carry no data and are not
modelled. -/

/-- A cell grid: rows of optional rendered cell texts. -/
def Grid : Type := List (List (Option String))

/-- `str(cell.value)` with `None` rendered as the empty string, as in
`autosize_columns`. -/
def renderCell : Option String → String
  | none => ""
  | some s => s

/-- `ws.max_column`: the number of columns of the grid. -/
def maxColumn (cells : Grid) : ℕ :=
  (List.map List.length cells).foldl max 0

/-- The column of cells `ws[col_letter]` at 0-based index `j`, one cell per
row (absent cells are empty). -/
def colCells (cells : Grid) (j : ℕ) : List (Option String) :=
  List.map (fun row => row.getD j none) cells

/-- `autosize_columns`: for each column, the width set on
`ws.column_dimensions`, namely `min(max_len + 2, 40)` where `max_len` is
the running maximum of the rendered cell text lengths (starting at 0). -/
def autosize_columns (cells : Grid) : List ℕ :=
  (List.range (maxColumn cells)).map (fun j =>
    min ((colCells cells j).foldl (fun m c => max m (renderCell c).length) 0 + 2) 40)

/-- A worksheet: its tab name, its value grid and its column widths. -/
structure Sheet where
  name : String
  cells : Grid
  widths : List ℕ

/-- The sheet written by `DataFrame.to_excel(writer, sheet_name=name,
index=False)` for a two-column table: a header row then one row per table
row. -/
def sheetOfTable (name h1 h2 : String) (tbl : List (String × ℚ)) : Sheet :=
  { name := name
    cells := [some h1, some h2] :: tbl.map (fun p => [some p.1, some (toString p.2)])
    widths := [] }

/-- `style_sheet`: inserts a title row above the grid (`insert_rows(1)`;
`A1 = title`) and applies `autosize_columns`; the remaining styling is
visual only. -/
def style_sheet (s : Sheet) (title : String) : Sheet :=
  let cells := [some title] :: s.cells
  { s with cells := cells, widths := autosize_columns cells }

/-- The `Summary` sheet built in `export_excel`: `A1 = "サマリー"`,
`A3 = "総売上"`, `B3 = total`, then `autosize_columns`. -/
def summary_sheet (total : ℤ) : Sheet :=
  let cells : Grid :=
    [[some "サマリー"], [], [some "総売上", some (toString total)]]
  { name := "Summary", cells := cells, widths := autosize_columns cells }

/-- `export_excel`: pandas writes the `Monthly` and `ByProduct` sheets,
openpyxl styles them, and `create_sheet("Summary", 0)` inserts the summary
sheet at position 0. -/
def export_excel (monthly by_product : List (String × ℚ)) (total : ℤ) :
    List Sheet :=
  let ws_m := sheetOfTable "Monthly" "month" "monthly_sales" monthly
  let ws_p := sheetOfTable "ByProduct" "product" "product_sales" by_product
  let ws_m := style_sheet ws_m "月別 売上レポート"
  let ws_p := style_sheet ws_p "商品別 売上レポート"
  List.insertIdx 0 (summary_sheet total) [ws_m, ws_p]

/-! ### Top-level control flow

`main` wraps the whole run (sample seeding, loading, aggregation, export)
in a single `try`/`except Exception`/`finally`.  The body is modelled
abstractly by its outcome: `Except.ok logs` when it completes with the
given log lines, `Except.error e` when any stage raises exception detail
`e`.  `main` returns the process exit status together with the log. -/

/-- `main`: runs the body under the top-level handler.  On success the
body's log lines appear; on any exception `logging.exception` records the
message together with the exception detail, nothing is re-raised, and the
`finally` block always logs the closing line.  The function returns
normally in both cases with exit status 0 (Python `main()` returns `None`
and the interpreter exits 0). -/
def mainRun (body : Except String (List String)) : ℕ × List String :=
  let startLog := "===== レポート作成 開始 ====="
  let endLog := "===== 処理終了 ====="
  match body with
  | Except.ok logs => (0, startLog :: logs ++ [endLog])
  | Except.error e => (0, startLog :: ("異常終了しました: " ++ e) :: [endLog])

/-! ### Basic lemmas about the aggregation -/

/-- The monthly component of `make_summary_tables`. -/
theorem make_summary_tables_monthly (rows : List Row) :
    (make_summary_tables rows).1 = groupbySumSorted monthOf rows := rfl

/-- The per-product component of `make_summary_tables`. -/
theorem make_summary_tables_by_product (rows : List Row) :
    (make_summary_tables rows).2.1
      = List.insertionSort salesDesc (groupbySumSorted Row.product rows) := rfl

/-- The grand-total component of `make_summary_tables`. -/
theorem make_summary_tables_total (rows : List Row) :
    (make_summary_tables rows).2.2 = pyInt ((rows.map sales).sum) := rfl

/-- Splitting a group sum at a cons cell. -/
theorem groupSum_cons (key : Row → String) (r : Row) (rest : List Row) (k : String) :
    groupSum key (r :: rest) k
      = (if key r = k then sales r else 0) + groupSum key rest k := by
  by_cases h : key r = k <;> simp [groupSum, List.filter_cons, h]

/-- Summing a pointwise sum of two maps. -/
theorem sum_map_add_fn {α : Type} (f g : α → ℚ) (l : List α) :
    (l.map (fun k => f k + g k)).sum = (l.map f).sum + (l.map g).sum := by
  induction l with
  | nil => simp
  | cons a l ih => simp only [List.map_cons, List.sum_cons, ih]; ring

/-- Over a duplicate-free key list containing `x`, the indicator sum
collapses to its value at `x`. -/
theorem sum_map_indicator (x : String) (v : ℚ) (l : List String)
    (hnd : l.Nodup) (hx : x ∈ l) :
    (l.map (fun k => if x = k then v else 0)).sum = v := by
  induction l with
  | nil => cases hx
  | cons a l ih =>
    rcases List.mem_cons.mp hx with h | h
    · subst h
      have hz : (l.map (fun k => if x = k then v else 0)).sum = 0 := by
        apply List.sum_eq_zero
        intro y hy
        rcases List.mem_map.mp hy with ⟨k, hk, rfl⟩
        have hne : x ≠ k := fun e => (List.nodup_cons.mp hnd).1 (e ▸ hk)
        simp [hne]
      simp [hz]
    · have hne : x ≠ a := by
        rintro rfl
        exact (List.nodup_cons.mp hnd).1 h
      simp [hne, ih (List.nodup_cons.mp hnd).2 h]

/-- Partition identity: summing the group sums over any duplicate-free key
list that covers every row gives the total sales sum. -/
theorem sum_groupSum (key : Row → String) (rows : List Row) (keys : List String)
    (hnd : keys.Nodup) (hcov : ∀ r ∈ rows, key r ∈ keys) :
    (keys.map (groupSum key rows)).sum = (rows.map sales).sum := by
  induction rows with
  | nil =>
    simp only [List.map_nil, List.sum_nil]
    apply List.sum_eq_zero
    intro x hx
    rcases List.mem_map.mp hx with ⟨k, _, rfl⟩
    simp [groupSum]
  | cons r rest ih =>
    have hr : key r ∈ keys := hcov r (List.mem_cons_self r rest)
    have hrest : ∀ x ∈ rest, key x ∈ keys := fun x hx =>
      hcov x (List.mem_cons_of_mem r hx)
    calc (keys.map (groupSum key (r :: rest))).sum
        = (keys.map (fun k =>
            (if key r = k then sales r else 0) + groupSum key rest k)).sum := by
          rw [List.map_congr_left (fun k _ => groupSum_cons key r rest k)]
      _ = (keys.map (fun k => if key r = k then sales r else 0)).sum
            + (keys.map (groupSum key rest)).sum := sum_map_add_fn _ _ keys
      _ = sales r + (rest.map sales).sum := by
          rw [sum_map_indicator (key r) (sales r) keys hnd hr, ih hrest]
      _ = ((r :: rest).map sales).sum := by simp


/-- The sorted key list of a grouping has no duplicates. -/
theorem groupKeys_nodup (key : Row → String) (rows : List Row) :
    (groupKeys key rows).Nodup :=
  ((List.perm_insertionSort _ _).nodup_iff).mpr (List.nodup_dedup _)

/-- Every row's key occurs in the sorted key list of the grouping. -/
theorem mem_groupKeys (key : Row → String) (rows : List Row) (r : Row)
    (hr : r ∈ rows) : key r ∈ groupKeys key rows := by
  have h : key r ∈ (rows.map key).dedup :=
    List.mem_dedup.mpr (List.mem_map_of_mem key hr)
  exact ((List.perm_insertionSort _ _).mem_iff).mpr h

/-- The value column of a grouped table. -/
theorem groupbySumSorted_snd (key : Row → String) (rows : List Row) :
    (groupbySumSorted key rows).map Prod.snd
      = (groupKeys key rows).map (groupSum key rows) := by
  simp [groupbySumSorted, List.map_map, Function.comp]

/-- The value column of a grouped table sums to the total sales sum. -/
theorem sum_snd_groupbySumSorted (key : Row → String) (rows : List Row) :
    ((groupbySumSorted key rows).map Prod.snd).sum = (rows.map sales).sum := by
  rw [groupbySumSorted_snd]
  exact sum_groupSum key rows _ (groupKeys_nodup key rows)
    (fun r hr => mem_groupKeys key rows r hr)

/-! ### The claims -/

/-- C3: on the fixed seven-row seed dataset, `make_summary_tables` returns
the monthly summary `[2026-01 ↦ 1500, 2026-02 ↦ 780]`, the product summary
`[Apple ↦ 840, Banana ↦ 800, Orange ↦ 640]` in that order, and the grand
total 2280. -/
theorem seed_dataset_summary :
    make_summary_tables sample_rows =
      ([("2026-01", 1500), ("2026-02", 780)],
       [("Apple", 840), ("Banana", 800), ("Orange", 640)], 2280) := by
  simp +decide [make_summary_tables, groupbySumSorted, groupKeys, groupSum,
    sales, monthOf, sample_rows, pyInt, List.insertionSort, List.orderedInsert,
    salesDesc, List.dedup]
  norm_num [salesDesc]

/-- C4: on the empty row set (a file holding only the header),
`make_summary_tables` returns an empty monthly summary, an empty product
summary and a grand total of zero. -/
theorem empty_input_summary : make_summary_tables [] = ([], [], 0) := by
  simp [make_summary_tables, groupbySumSorted, groupKeys, groupSum, pyInt,
    List.insertionSort]

/-- C5: the grand total is the `sales` column — quantity times unit price
per row — summed exactly first and only then coerced to an integer, where
the coercion `pyInt` truncates toward zero: its magnitude is the integer
part of the magnitude of the sum. -/
theorem grand_total_is_truncated_sum (rows : List Row) :
    (make_summary_tables rows).2.2
        = pyInt ((rows.map (fun r => (r.qty : ℚ) * r.unit_price)).sum)
  ∧ ∀ q : ℚ, |(pyInt q : ℚ)| ≤ |q| ∧ |q| < |(pyInt q : ℚ)| + 1 := by
  constructor
  · rfl
  · intro q
    by_cases h : q < 0
    · have hc : pyInt q = ⌈q⌉ := by simp [pyInt, h]
      have h1 : q ≤ ((⌈q⌉ : ℤ) : ℚ) := Int.le_ceil q
      have h2 : ((⌈q⌉ : ℤ) : ℚ) < q + 1 := Int.ceil_lt_add_one q
      have h3 : ((⌈q⌉ : ℤ) : ℚ) ≤ 0 := by
        have hz : ⌈q⌉ ≤ (0 : ℤ) := by
          rw [← Int.ceil_intCast (α := ℚ) (0 : ℤ)]
          exact Int.ceil_le_ceil (by exact_mod_cast h.le)
        exact_mod_cast hz
      rw [hc, abs_of_nonpos h3, abs_of_neg h]
      constructor <;> linarith
    · push_neg at h
      have hc : pyInt q = ⌊q⌋ := by simp [pyInt, not_lt.mpr h]
      have h1 : ((⌊q⌋ : ℤ) : ℚ) ≤ q := Int.floor_le q
      have h2 : q < ((⌊q⌋ : ℤ) : ℚ) + 1 := Int.lt_floor_add_one q
      have h3 : (0 : ℚ) ≤ ((⌊q⌋ : ℤ) : ℚ) := by
        exact_mod_cast Int.floor_nonneg.mpr h
      rw [hc, abs_of_nonneg h3, abs_of_nonneg h]
      constructor <;> linarith

/-- C6: `ensure_sample_csv` leaves an existing input file untouched, writes
exactly the seven-row sample dataset when the file is absent, and hence a
second run over the seeded state changes nothing. -/
theorem sample_seeding_idempotent :
    (∀ f : List Row, ensure_sample_csv (some f) = some f)
  ∧ ensure_sample_csv none = some sample_rows
  ∧ ensure_sample_csv (ensure_sample_csv none) = ensure_sample_csv none :=
  ⟨fun _ => rfl, rfl, rfl⟩

/-- C7: for every monthly summary, product summary and grand total, the
workbook written by `export_excel` consists of exactly the three sheets
`Summary`, `Monthly`, `ByProduct` in that order, with `Summary` inserted
first. -/
theorem workbook_sheet_names (monthly by_product : List (String × ℚ))
    (total : ℤ) :
    (export_excel monthly by_product total).map Sheet.name
      = ["Summary", "Monthly", "ByProduct"] := rfl

/-- C9: whatever the outcome of the body — success with some log lines, or
an exception raised in seeding, loading, aggregation or export — `main`
returns normally with exit status 0, and on an exception the top-level
handler logs the exception detail exactly once between the fixed opening
and closing lines, re-raising nothing. -/
theorem main_always_exits_zero (body : Except String (List String)) :
    (mainRun body).1 = 0
  ∧ ∀ e, body = Except.error e →
      (mainRun body).2 = ["===== レポート作成 開始 =====",
        "異常終了しました: " ++ e, "===== 処理終了 ====="] := by
  constructor
  · cases body <;> rfl
  · rintro e rfl
    rfl

/-- Witness for C9 at a concrete raised exception. -/
theorem main_always_exits_zero_witness :
    (mainRun (Except.error "FileNotFoundError")).2
      = ["===== レポート作成 開始 =====",
         "異常終了しました: FileNotFoundError", "===== 処理終了 ====="] :=
  (main_always_exits_zero (Except.error "FileNotFoundError")).2
    "FileNotFoundError" rfl

/-- C1 as stated is false: with a single row of quantity 1 and unit price
1/2, the monthly sales sum is 1/2 while the grand total `int(...)`
truncates to 0, so the monthly sum does not equal the grand total. -/
theorem reconciliation_fails_on_fractional_sales :
    ¬ (((make_summary_tables [⟨"2026-01-01", "Apple", 1, 1/2⟩]).1.map
          Prod.snd).sum
        = ((make_summary_tables [⟨"2026-01-01", "Apple", 1, 1/2⟩]).2.2 : ℚ)) := by
  simp +decide [make_summary_tables, groupbySumSorted, groupKeys, groupSum,
    sales, monthOf, pyInt, List.insertionSort, List.orderedInsert, List.dedup]
  norm_num

/-- C1 (amended): the monthly sales sum always equals the product sales sum
and both equal the exact sum of all `sales` values; whenever that exact sum
is an integer — in particular for the integer inputs of practice — it also
equals the grand total. -/
theorem reconciliation_amended (rows : List Row) :
    ((make_summary_tables rows).1.map Prod.snd).sum
        = ((make_summary_tables rows).2.1.map Prod.snd).sum
  ∧ ((make_summary_tables rows).1.map Prod.snd).sum = (rows.map sales).sum
  ∧ ∀ n : ℤ, (rows.map sales).sum = (n : ℚ) →
      (make_summary_tables rows).2.2 = n := by
  have hm : ((make_summary_tables rows).1.map Prod.snd).sum
      = (rows.map sales).sum := by
    rw [make_summary_tables_monthly]
    exact sum_snd_groupbySumSorted monthOf rows
  have hp : ((make_summary_tables rows).2.1.map Prod.snd).sum
      = (rows.map sales).sum := by
    rw [make_summary_tables_by_product,
      ((List.perm_insertionSort salesDesc
        (groupbySumSorted Row.product rows)).map Prod.snd).sum_eq]
    exact sum_snd_groupbySumSorted Row.product rows
  refine ⟨hm.trans hp.symm, hm, ?_⟩
  intro n hn
  rw [make_summary_tables_total, hn]
  unfold pyInt
  split
  · exact Int.ceil_intCast n
  · exact Int.floor_intCast n

/-- Witness for C1 (amended): on the seed dataset the sales sum is the
integer 2280 and the grand total equals it. -/
theorem reconciliation_amended_witness :
    (make_summary_tables sample_rows).2.2 = 2280 :=
  (reconciliation_amended sample_rows).2.2 2280 (by
    norm_num [sample_rows, sales])

/-- C2: the monthly summary is sorted non-decreasing in the month key
string, the product summary is sorted non-increasing in its summed sales
value, and the output — including the relative order of tied rows — is a
function of the input row list alone, hence deterministic for a fixed
input order. -/
theorem summary_sort_order (rows rows2 : List Row) :
    List.Sorted (fun a b => a ≤ b)
        ((make_summary_tables rows).1.map Prod.fst)
  ∧ List.Sorted (fun a b : ℚ => b ≤ a)
        ((make_summary_tables rows).2.1.map Prod.snd)
  ∧ (rows = rows2 → make_summary_tables rows = make_summary_tables rows2) := by
  refine ⟨?_, ?_, fun h => by rw [h]⟩
  · have hfst : (make_summary_tables rows).1.map Prod.fst
        = groupKeys monthOf rows := by
      rw [make_summary_tables_monthly]
      unfold groupbySumSorted
      rw [List.map_map]
      have hcomp : (Prod.fst ∘ fun k => (k, groupSum monthOf rows k)) = id := rfl
      rw [hcomp, List.map_id]
    rw [hfst]
    exact List.sorted_insertionSort _ _
  · rw [make_summary_tables_by_product]
    have hs : List.Pairwise salesDesc
        (List.insertionSort salesDesc (groupbySumSorted Row.product rows)) :=
      List.sorted_insertionSort _ _
    exact List.pairwise_map.mpr hs

/-- Witness for C2's determinism clause at the seed dataset. -/
theorem summary_sort_order_witness :
    make_summary_tables sample_rows = make_summary_tables sample_rows :=
  (summary_sort_order sample_rows sample_rows).2.2 rfl

/-- C10: the monthly summary — its keys, sums and row order — and the
grand total are unchanged by any permutation of the input rows. -/
theorem aggregation_perm_invariant (rows rows2 : List Row)
    (h : rows.Perm rows2) :
    (make_summary_tables rows).1 = (make_summary_tables rows2).1
  ∧ (make_summary_tables rows).2.2 = (make_summary_tables rows2).2.2 := by
  have hkeys : groupKeys monthOf rows = groupKeys monthOf rows2 := by
    have hperm : (groupKeys monthOf rows).Perm (groupKeys monthOf rows2) :=
      (List.perm_insertionSort _ _).trans
        (((h.map monthOf).dedup).trans (List.perm_insertionSort _ _).symm)
    have hs1 : List.Sorted (fun a b : String => a ≤ b) (groupKeys monthOf rows) :=
      List.sorted_insertionSort _ _
    have hs2 : List.Sorted (fun a b : String => a ≤ b) (groupKeys monthOf rows2) :=
      List.sorted_insertionSort _ _
    exact List.eq_of_perm_of_sorted hperm hs1 hs2
  constructor
  · rw [make_summary_tables_monthly, make_summary_tables_monthly]
    unfold groupbySumSorted
    rw [hkeys]
    apply List.map_congr_left
    intro k _
    have hg : groupSum monthOf rows k = groupSum monthOf rows2 k := by
      unfold groupSum
      exact ((h.filter _).map sales).sum_eq
    rw [hg]
  · rw [make_summary_tables_total, make_summary_tables_total,
      (h.map sales).sum_eq]

/-- Witness for C10: reversing the seed dataset changes neither the monthly
summary nor the grand total. -/
theorem aggregation_perm_invariant_witness :
    (make_summary_tables sample_rows).1
        = (make_summary_tables sample_rows.reverse).1
  ∧ (make_summary_tables sample_rows).2.2
        = (make_summary_tables sample_rows.reverse).2.2 :=
  aggregation_perm_invariant sample_rows sample_rows.reverse
    (List.reverse_perm sample_rows).symm

/-- The start value is a lower bound of a `max` fold. -/
theorem le_foldl_max (l : List ℕ) (a : ℕ) : a ≤ l.foldl max a := by
  induction l generalizing a with
  | nil => exact le_refl a
  | cons b l ih => exact le_trans (le_max_left a b) (ih (max a b))

/-- Every member is a lower bound of a `max` fold. -/
theorem mem_le_foldl_max (l : List ℕ) (a x : ℕ) (hx : x ∈ l) :
    x ≤ l.foldl max a := by
  induction l generalizing a with
  | nil => cases hx
  | cons b l ih =>
    rcases List.mem_cons.mp hx with rfl | h
    · exact le_trans (le_max_right a x) (le_foldl_max l (max a x))
    · exact ih (max a b) h

/-- A `max` fold returns its start value or a member. -/
theorem foldl_max_mem (l : List ℕ) (a : ℕ) :
    l.foldl max a = a ∨ l.foldl max a ∈ l := by
  induction l generalizing a with
  | nil => exact Or.inl rfl
  | cons b l ih =>
    rcases ih (max a b) with h | h
    · rcases max_choice a b with h2 | h2
      · exact Or.inl (by rw [List.foldl_cons, h, h2])
      · exact Or.inr (by rw [List.foldl_cons, h, h2]; exact List.mem_cons_self b l)
    · exact Or.inr (List.mem_cons_of_mem b h)

/-- Indexing a mapped range. -/
theorem getD_map_range (n : ℕ) (f : ℕ → ℕ) (j : ℕ) (hj : j < n) :
    ((List.range n).map f).getD j 0 = f j := by
  rw [List.getD_eq_getElem?_getD, List.getElem?_map, List.getElem?_range hj]
  rfl

/-- C8: for every worksheet grid and every column, `autosize_columns` sets
the column's width to the length of the longest rendered cell text in that
column (empty cells rendering as `""`, and 0 for a column with no cells)
plus 2, capped at 40. -/
theorem autosize_columns_width (cells : Grid) (j : ℕ)
    (hj : j < maxColumn cells) :
    ∃ M, (∀ c ∈ colCells cells j, (renderCell c).length ≤ M)
      ∧ (M = 0 ∨ ∃ c ∈ colCells cells j, (renderCell c).length = M)
      ∧ (autosize_columns cells).getD j 0 = min (M + 2) 40 := by
  refine ⟨((colCells cells j).map (fun c => (renderCell c).length)).foldl max 0,
    ?_, ?_, ?_⟩
  · intro c hc
    exact mem_le_foldl_max _ 0 _ (List.mem_map_of_mem _ hc)
  · rcases foldl_max_mem
        ((colCells cells j).map (fun c => (renderCell c).length)) 0 with h | h
    · exact Or.inl h
    · rcases List.mem_map.mp h with ⟨c, hc, hlen⟩
      exact Or.inr ⟨c, hc, hlen⟩
  · unfold autosize_columns
    rw [getD_map_range _ _ j hj, List.foldl_map]

/-- Witness for C8 on a concrete two-row grid at its first column. -/
theorem autosize_columns_width_witness :
    ∃ M, (∀ c ∈ colCells ([[some "ab", none], [some "abcd"]] : Grid) 0,
            (renderCell c).length ≤ M)
      ∧ (M = 0 ∨ ∃ c ∈ colCells ([[some "ab", none], [some "abcd"]] : Grid) 0,
            (renderCell c).length = M)
      ∧ (autosize_columns ([[some "ab", none], [some "abcd"]] : Grid)).getD 0 0
          = min (M + 2) 40 :=
  autosize_columns_width ([[some "ab", none], [some "abcd"]] : Grid) 0
    (by decide)

end SalesReport
